import Mathlib

/-!
Verification of the layer-chain composition engine in `daemon/create.go`
(functions `compose`, `restore`, `getParentIds`, and the control flow of
`Daemon.create`).

The filesystem is modelled as an association list from absolute path to
file content.  `os.Rename` on Linux replaces an existing destination and
fails only when the source is missing; `os.Remove` fails when the path is
missing; `os.Create` truncates/creates.  Strings are split with a
structural character-level splitter so that all definitions reduce in the
kernel.  Go's `map` lookup returns the zero value `""` for a missing key;
duplicate keys are last-write-wins.
-/

set_option autoImplicit false

namespace Docker

/-- A filesystem: association list from path to file content. -/
abbrev FS := List (String × String)

/-- Read a file (`os.Open` + `ioutil.ReadAll`): `none` when the path is absent. -/
def FS.read : FS → String → Option String
  | [], _ => none
  | (q, c) :: rest, p => if q = p then some c else FS.read rest p

/-- Remove every entry at a path. -/
def FS.erase : FS → String → FS
  | [], _ => []
  | (q, c) :: rest, p => if q = p then FS.erase rest p else (q, c) :: FS.erase rest p

/-- Create/truncate a file and write content (`os.Create` + writes). -/
def FS.write (fs : FS) (p c : String) : FS := (p, c) :: FS.erase fs p

/-- `os.Rename src dst` on Linux: fails iff `src` is missing; silently
replaces `dst` when it already exists. -/
def FS.rename (fs : FS) (src dst : String) : Option FS :=
  match FS.read fs src with
  | none => none
  | some c => some (FS.write (FS.erase fs src) dst c)

/-- `os.Remove p`: fails iff `p` is missing. -/
def FS.remove (fs : FS) (p : String) : Option FS :=
  match FS.read fs p with
  | none => none
  | some _ => some (FS.erase fs p)

/-- Split a character list at every occurrence of `c` (the semantics of
Go's `strings.Split` / line scanning, at the character level). -/
def splitOnChar (c : Char) : List Char → List (List Char)
  | [] => [[]]
  | x :: rest =>
    match splitOnChar c rest with
    | [] => if x = c then [[], []] else [[x]]
    | h :: t => if x = c then [] :: h :: t else (x :: h) :: t

/-- The lines of a file content (`strings.Split(s, "\n")`; a
`bufio.Scanner` yields the same non-blank lines). -/
def linesOf (s : String) : List String := (splitOnChar '\n' s.data).map String.mk

/-- `strings.Split(t, ",")`. -/
def splitComma (t : String) : List String := (splitOnChar ',' t.data).map String.mk

/-- `strings.Split(s, "_")`, used on `params.Config.Image`. -/
def splitUnderscore (s : String) : List String := (splitOnChar '_' s.data).map String.mk

/-- `strings.Replace(s, "\n", "", -1)`: delete every newline. -/
def stripNewlines (s : String) : String := String.mk (s.data.filter (fun ch => ch ≠ '\n'))

/-- Join path components with `/`. -/
def joinSlash : List String → String
  | [] => ""
  | [p] => p
  | p :: rest => p ++ "/" ++ joinSlash rest

/-- Go's `path.Join` on clean components: empty components are dropped,
the rest are joined with `/`. -/
def pathJoin (parts : List String) : String :=
  joinSlash (parts.filter (fun p => p ≠ ""))

/-- Content written by a sequence of `fmt.Fprintln(f, line)` calls. -/
def renderLines (ls : List String) : String :=
  ls.foldr (fun l acc => l ++ "\n" ++ acc) ""

def manifestDir : String := "/var/lib/docker/image/aufs/imagedb/manifest"

def layerdbDir : String := "/var/lib/docker/image/aufs/layerdb/sha256"

def layersDir : String := "/var/lib/docker/aufs/layers"

/-- One scan pass of the manifest file: skip blank lines, split each line
on `,` and record `(m[0], m[1])`.  A line with no comma makes Go's
`m[1]` panic: modelled as `none`. -/
def parseManifestLines : List String → Option (List (String × String))
  | [] => some []
  | t :: rest =>
    if t = "" then parseManifestLines rest
    else
      match splitComma t with
      | m0 :: m1 :: _ =>
        match parseManifestLines rest with
        | none => none
        | some acc => some ((m0, m1) :: acc)
      | _ => none

/-- Go map lookup where insertion was in list order (later keys override):
the last matching entry wins. -/
def mapFind : List (String × String) → String → Option String
  | [], _ => none
  | (k, v) :: rest, key =>
    match mapFind rest key with
    | some r => some r
    | none => if k = key then some v else none

/-- Go map indexing `functionM[para]`: zero value `""` when absent. -/
def mapGet (m : List (String × String)) (key : String) : String :=
  (mapFind m key).getD ""

/-- Errors returned by the modelled `os` calls (the Go code wraps and
returns these verbatim; it defines no error kinds of its own). -/
inductive GoErr where
  | openErr (p : String)
  | removeErr (p : String)
  | renameErr (p : String)
deriving DecidableEq, Repr

/-- Result of `compose`: a Go panic (index out of range), an error return
`("", err)`, or `(layersP, nil)`; the filesystem state rides along. -/
inductive Outcome where
  | crash
  | fail (e : GoErr) (fs : FS)
  | ok (layersP : String) (fs : FS)
deriving DecidableEq, Repr

def Outcome.isFail : Outcome → Bool
  | .fail _ _ => true
  | _ => false

def Outcome.fsOut : Outcome → FS
  | .crash => []
  | .fail _ g => g
  | .ok _ g => g

def Outcome.pathOut : Outcome → String
  | .ok p _ => p
  | _ => ""

/-- Total head with Go-flavoured default. -/
def headD : List String → String
  | [] => ""
  | x :: _ => x

/-- Total last with Go-flavoured default (`composeS[len(composeS)-1]`). -/
def lastD : List String → String
  | [] => ""
  | [x] => x
  | _ :: x :: rest => lastD (x :: rest)

/-- The `cache-id` metadata path for one request token:
`path.Join(layerdbDir, functionM[para], "cache-id")`. -/
def resolveOnePath (functionM : List (String × String)) (para : String) : String :=
  pathJoin [layerdbDir, mapGet functionM para, "cache-id"]

/-- The resolution loop of `compose`: open each `cache-id` file in request
order, returning the first open error; values have newlines stripped. -/
def resolveLoop (fs : FS) (functionM : List (String × String)) :
    List String → Except GoErr (List String)
  | [] => Except.ok []
  | para :: rest =>
    match FS.read fs (resolveOnePath functionM para) with
    | none => Except.error (GoErr.openErr (resolveOnePath functionM para))
    | some fd =>
      match resolveLoop fs functionM rest with
      | Except.error e => Except.error e
      | Except.ok tail => Except.ok (stripNewlines fd :: tail)

/-- The fully-resolved CacheID of one token (meaningful when its
`cache-id` file exists). -/
def resolveOne (fs : FS) (functionM : List (String × String)) (para : String) : String :=
  stripNewlines ((FS.read fs (resolveOnePath functionM para)).getD "")

/-- `getParentIds`: the non-blank lines of the descriptor file (the open
error itself is returned by `compose` when the file is absent). -/
def chainLines (s : String) : List String := (linesOf s).filter (fun t => t ≠ "")

/-- The suffix-scan of `compose`: find the first entry equal to `base`
and return everything strictly after it; nothing when `base` is absent. -/
def suffixAfterFirst : List String → String → List String
  | [], _ => []
  | x :: rest, base => if x = base then rest else suffixAfterFirst rest base

/-- The backup-and-rewrite half of `compose` (from `layersP := ...` to the
two write loops): read the original chain, rename it to `layersP-backup`,
recreate `layersP` and write the reversed synthesized list minus its last
element, then the original entries strictly after the first occurrence of
`composeS[0]`. -/
def composeWrite (fs : FS) (composeS : List String) : Outcome :=
  let layersP := pathJoin [layersDir, lastD composeS]
  match FS.read fs layersP with
  | none => Outcome.fail (GoErr.openErr layersP) fs
  | some orig =>
    match FS.rename fs layersP (layersP ++ "-backup") with
    | none => Outcome.fail (GoErr.renameErr layersP) fs
    | some fs1 =>
      Outcome.ok layersP (FS.write fs1 layersP
        (renderLines (List.reverse (List.dropLast composeS) ++
          suffixAfterFirst (chainLines orig) (headD composeS))))

/-- `compose(paras)`: open the manifest named by `paras[0]` (index panic
when `paras` is empty), scan it into `functionM`, resolve every token of
`paras ++ ["chainID"]` to a CacheID, then back up and rewrite the
descriptor file keyed by the last resolved CacheID. -/
def compose (fs : FS) (paras : List String) : Outcome :=
  match paras with
  | [] => Outcome.crash
  | p0 :: rest =>
    match FS.read fs (pathJoin [manifestDir, p0]) with
    | none => Outcome.fail (GoErr.openErr (pathJoin [manifestDir, p0])) fs
    | some mtext =>
      match parseManifestLines (linesOf mtext) with
      | none => Outcome.crash
      | some functionM =>
        match resolveLoop fs functionM (p0 :: rest ++ ["chainID"]) with
        | Except.error e => Outcome.fail e fs
        | Except.ok composeS => composeWrite fs composeS

/-- `restore(layersP)`: `os.Remove(layersP)` then rename
`layersP-backup` back; on error the partial filesystem state is kept. -/
def restore (fs : FS) (layersP : String) : Option GoErr × FS :=
  match FS.remove fs layersP with
  | none => (some (GoErr.removeErr layersP), fs)
  | some fs1 =>
    match FS.rename fs1 (layersP ++ "-backup") layersP with
    | none => (some (GoErr.renameErr (layersP ++ "-backup")), fs1)
    | some fs2 => (none, fs2)

/-! ### Basic lemmas about the filesystem model -/

theorem FS.read_write_self (fs : FS) (p c : String) :
    FS.read (FS.write fs p c) p = some c := by
  simp [FS.read, FS.write]

theorem FS.read_erase (fs : FS) (p q : String) :
    FS.read (FS.erase fs p) q = if p = q then none else FS.read fs q := by
  induction fs with
  | nil => simp [FS.erase, FS.read]
  | cons kv rest ih =>
    obtain ⟨a, b⟩ := kv
    by_cases hap : a = p
    · subst hap
      by_cases haq : a = q
      · subst haq
        simp [FS.erase, FS.read, ih]
      · simp [FS.erase, FS.read, haq, Ne.symm haq, ih]
    · by_cases haq : a = q
      · subst haq
        simp [FS.erase, FS.read, hap, Ne.symm hap, ih]
      · simp [FS.erase, FS.read, hap, haq, ih]

theorem FS.read_erase_ne (fs : FS) (p q : String) (h : p ≠ q) :
    FS.read (FS.erase fs p) q = FS.read fs q := by
  simp [FS.read_erase, h]

theorem FS.read_write_ne (fs : FS) (p c q : String) (h : p ≠ q) :
    FS.read (FS.write fs p c) q = FS.read fs q := by
  simp [FS.read, FS.write, h, FS.read_erase_ne fs p q h]

theorem append_backup_ne (s : String) : s ++ "-backup" ≠ s := by
  intro h
  have hd : (s ++ "-backup").data = s.data := congrArg String.data h
  rw [String.data_append] at hd
  have hl := congrArg List.length hd
  rw [List.length_append] at hl
  have h7 : ("-backup" : String).data.length = 7 := by decide
  omega

/-! ### Lemmas about the split-point scan and the resolution loop -/

theorem suffixAfterFirst_not_mem (ids : List String) (base : String) (h : base ∉ ids) :
    suffixAfterFirst ids base = [] := by
  induction ids with
  | nil => rfl
  | cons x rest ih =>
    simp only [List.mem_cons, not_or] at h
    simp only [suffixAfterFirst]
    rw [if_neg (fun hx => h.1 hx.symm), ih h.2]

theorem suffixAfterFirst_append (l1 l2 : List String) (base : String) (h : base ∉ l1) :
    suffixAfterFirst (l1 ++ base :: l2) base = l2 := by
  induction l1 with
  | nil => simp [suffixAfterFirst]
  | cons x rest ih =>
    simp only [List.mem_cons, not_or] at h
    rw [List.cons_append]
    simp only [suffixAfterFirst]
    rw [if_neg (fun hx => h.1 hx.symm)]
    exact ih h.2

theorem lastD_concat (l : List String) (a : String) : lastD (l ++ [a]) = a := by
  induction l with
  | nil => rfl
  | cons x l ih =>
    cases l with
    | nil => rfl
    | cons y t => simpa [lastD] using ih

theorem lastD_map_concat (f : String → String) (l : List String) (a : String) :
    lastD (List.map f (l ++ [a])) = f a := by
  rw [List.map_append]
  exact lastD_concat _ _

theorem dropLast_map_concat (f : String → String) (l : List String) (a : String) :
    List.dropLast (List.map f (l ++ [a])) = List.map f l := by
  rw [List.map_append]
  exact List.dropLast_concat

theorem resolveLoop_ok_map (fs : FS) (m : List (String × String)) (ps cs : List String)
    (h : resolveLoop fs m ps = Except.ok cs) : cs = List.map (resolveOne fs m) ps := by
  induction ps generalizing cs with
  | nil =>
    simp only [resolveLoop] at h
    injection h with h'
    rw [← h']
    rfl
  | cons para rest ih =>
    simp only [resolveLoop] at h
    split at h
    · simp at h
    · rename_i fd hr
      split at h
      · simp at h
      · rename_i tail hrec
        injection h with h'
        rw [← h', List.map_cons, ih tail hrec]
        simp [resolveOne, hr]

/-! ### Characterisation and inversion of `compose` -/

theorem composeWrite_ok (fs : FS) (composeS : List String) (orig : String)
    (ho : FS.read fs (pathJoin [layersDir, lastD composeS]) = some orig) :
    composeWrite fs composeS =
      Outcome.ok (pathJoin [layersDir, lastD composeS])
        (FS.write
          (FS.write (FS.erase fs (pathJoin [layersDir, lastD composeS]))
            (pathJoin [layersDir, lastD composeS] ++ "-backup") orig)
          (pathJoin [layersDir, lastD composeS])
          (renderLines (List.reverse (List.dropLast composeS) ++
            suffixAfterFirst (chainLines orig) (headD composeS)))) := by
  simp only [composeWrite, FS.rename, ho]

theorem compose_resolved (fs : FS) (p0 : String) (rest : List String) (mtext : String)
    (functionM : List (String × String)) (composeS : List String)
    (hm : FS.read fs (pathJoin [manifestDir, p0]) = some mtext)
    (hp : parseManifestLines (linesOf mtext) = some functionM)
    (hr : resolveLoop fs functionM (p0 :: rest ++ ["chainID"]) = Except.ok composeS) :
    compose fs (p0 :: rest) = composeWrite fs composeS := by
  simp only [compose, hm, hp, hr]

theorem composeWrite_fail_unchanged (fs : FS) (cs : List String) (e : GoErr) (g : FS)
    (h : composeWrite fs cs = Outcome.fail e g) : g = fs := by
  simp only [composeWrite] at h
  split at h
  · injection h with h1 h2
    exact h2.symm
  · split at h
    · injection h with h1 h2
      exact h2.symm
    · simp at h

theorem compose_fail_unchanged (fs : FS) (paras : List String) (e : GoErr) (g : FS)
    (h : compose fs paras = Outcome.fail e g) : g = fs := by
  simp only [compose] at h
  split at h
  · simp at h
  · split at h
    · injection h with h1 h2
      exact h2.symm
    · split at h
      · simp at h
      · split at h
        · injection h with h1 h2
          exact h2.symm
        · exact composeWrite_fail_unchanged _ _ _ _ h

theorem composeWrite_ok_inv (fs : FS) (cs : List String) (p : String) (g : FS)
    (h : composeWrite fs cs = Outcome.ok p g) :
    ∃ orig newC, FS.read fs p = some orig ∧
      g = FS.write (FS.write (FS.erase fs p) (p ++ "-backup") orig) p newC := by
  simp only [composeWrite, FS.rename] at h
  split at h
  · simp at h
  · rename_i orig ho
    split at h
    · simp at h
    · rename_i fs1 hren
      injection h with h1 h2
      subst h1
      injection hren with h3
      exact ⟨orig,
        renderLines (List.reverse (List.dropLast cs) ++
          suffixAfterFirst (chainLines orig) (headD cs)),
        ho, by rw [← h2, ← h3]⟩

theorem compose_ok_inv (fs : FS) (paras : List String) (p : String) (g : FS)
    (h : compose fs paras = Outcome.ok p g) :
    ∃ orig newC, FS.read fs p = some orig ∧
      g = FS.write (FS.write (FS.erase fs p) (p ++ "-backup") orig) p newC := by
  simp only [compose] at h
  split at h
  · simp at h
  · split at h
    · simp at h
    · split at h
      · simp at h
      · split at h
        · simp at h
        · exact composeWrite_ok_inv _ _ _ _ h

/-! ### The control flow of `Daemon.create`

The container-creation steps between `compose` and `restore` are external
collaborators; each is modelled by a Bool saying whether it succeeds.  The
deferred cleanups of `create` (`ContainerRm` with `ForceRemove` once
`newContainer` has succeeded, `removeMountPoints` once `setHostConfig`
has succeeded) run exactly when `create` returns a non-nil error. -/

/-- Success/failure of each external call made by `Daemon.create`, in
source order. -/
structure Steps where
  getImage : Bool
  mergeAndVerify : Bool
  newContainer : Bool
  setSecurityOptions : Bool
  setRWLayer : Bool
  register : Bool
  rootUIDGID : Bool
  mkdirAs : Bool
  setHostConfig : Bool
  platformSettings : Bool
  updateNetwork : Bool
  toDisk : Bool
deriving DecidableEq, Repr

/-- Observable outcome of one `Daemon.create` run:  whether it returned a
container, whether `restore` was invoked, whether `newContainer` had built
a container, whether the deferred `ContainerRm` destroyed it, and the
final filesystem. -/
structure CreateOut where
  ok : Bool
  restoreCalled : Bool
  containerCreated : Bool
  containerRemoved : Bool
  fs : FS
deriving DecidableEq, Repr

/-- The straight-line part of `Daemon.create` after `compose` has
returned `layersP`:  each failing step returns its error immediately
(running the deferred cleanups), and `restore` is reached only when every
step has succeeded. -/
def pipeline (fs : FS) (layersP : String) (needImage : Bool) (st : Steps) : CreateOut :=
  if needImage && !st.getImage then ⟨false, false, false, false, fs⟩
  else if !st.mergeAndVerify then ⟨false, false, false, false, fs⟩
  else if !st.newContainer then ⟨false, false, false, false, fs⟩
  else if !st.setSecurityOptions then ⟨false, false, true, true, fs⟩
  else if !st.setRWLayer then ⟨false, false, true, true, fs⟩
  else if !st.register then ⟨false, false, true, true, fs⟩
  else if !st.rootUIDGID then ⟨false, false, true, true, fs⟩
  else if !st.mkdirAs then ⟨false, false, true, true, fs⟩
  else if !st.setHostConfig then ⟨false, false, true, true, fs⟩
  else if !st.platformSettings then ⟨false, false, true, true, fs⟩
  else if !st.updateNetwork then ⟨false, false, true, true, fs⟩
  else if !st.toDisk then ⟨false, false, true, true, fs⟩
  else
    match restore fs layersP with
    | (some _, fs2) => ⟨false, true, true, true, fs2⟩
    | (none, fs2) => ⟨true, true, true, false, fs2⟩

/-- Whether every step of the pipeline succeeds (`getImage` is consulted
only when an image reference was supplied). -/
def stepsAllOk (needImage : Bool) (st : Steps) : Bool :=
  (!needImage || st.getImage) && st.mergeAndVerify && st.newContainer &&
  st.setSecurityOptions && st.setRWLayer && st.register && st.rootUIDGID &&
  st.mkdirAs && st.setHostConfig && st.platformSettings && st.updateNetwork &&
  st.toDisk

/-- `Daemon.create`: when an image reference is supplied it is split on
`_` and the tail is handed to `compose` (whose panic aborts everything:
`none`); a compose error is returned before any container work; otherwise
the external pipeline runs on the swapped filesystem. -/
def createModel (fs : FS) (image : String) (st : Steps) : Option CreateOut :=
  if image = "" then some (pipeline fs "" false st)
  else
    match compose fs ((splitUnderscore image).drop 1) with
    | Outcome.crash => none
    | Outcome.fail _ g => some ⟨false, false, false, false, g⟩
    | Outcome.ok layersP g => some (pipeline g layersP true st)

/-! ### Further support lemmas -/

theorem resolveLoop_mem_fail (fs : FS) (m : List (String × String)) (ps : List String)
    (para : String) (hmem : para ∈ ps)
    (hnone : FS.read fs (resolveOnePath m para) = none) :
    ∀ cs, resolveLoop fs m ps ≠ Except.ok cs := by
  induction ps with
  | nil => simp at hmem
  | cons x rest ih =>
    intro cs h
    simp only [resolveLoop] at h
    rcases List.mem_cons.mp hmem with heq | hmem'
    · subst heq
      rw [hnone] at h
      simp at h
    · split at h
      · simp at h
      · split at h
        · simp at h
        · rename_i tail hrec
          exact ih hmem' tail hrec

theorem parse_bad_line_none (lines : List String) (t : String)
    (hmem : t ∈ lines) (hne : t ≠ "") (hbad : splitComma t = [t]) :
    parseManifestLines lines = none := by
  induction lines with
  | nil => simp at hmem
  | cons x rest ih =>
    rcases List.mem_cons.mp hmem with heq | hmem'
    · subst heq
      simp only [parseManifestLines, if_neg hne]
      rw [hbad]
    · simp only [parseManifestLines]
      by_cases hx : x = ""
      · rw [if_pos hx]
        exact ih hmem'
      · rw [if_neg hx, ih hmem']
        split <;> rfl

theorem pipeline_allOk (fs : FS) (layersP : String) (needImage : Bool) (st : Steps)
    (hall : stepsAllOk needImage st = true) :
    pipeline fs layersP needImage st =
      match restore fs layersP with
      | (some _, fs2) => ⟨false, true, true, true, fs2⟩
      | (none, fs2) => ⟨true, true, true, false, fs2⟩ := by
  obtain ⟨s1, s2, s3, s4, s5, s6, s7, s8, s9, s10, s11, s12⟩ := st
  simp only [stepsAllOk, Bool.and_eq_true, Bool.or_eq_true, Bool.not_eq_true'] at hall
  obtain ⟨⟨⟨⟨⟨⟨⟨⟨⟨⟨⟨h1, h2⟩, h3⟩, h4⟩, h5⟩, h6⟩, h7⟩, h8⟩, h9⟩, h10⟩, h11⟩, h12⟩ := hall
  subst h2; subst h3; subst h4; subst h5; subst h6; subst h7
  subst h8; subst h9; subst h10; subst h11; subst h12
  cases needImage with
  | false => simp [pipeline]
  | true =>
    rcases h1 with h1 | h1
    · exact absurd h1 (by simp)
    · subst h1
      simp [pipeline]

/-! ### Concrete example filesystems -/

/-- Manifest text mapping two function names and `chainID` to digests. -/
def exMan : String := "m1,d1\nm2,d2\nchainID,dT"

/-- A filesystem on which `compose` succeeds: manifest `m1`, three
`cache-id` files, and a descriptor for top layer `cT` whose chain contains
the split point `c1`. -/
def exFS : FS :=
  [(pathJoin [manifestDir, "m1"], exMan),
   (pathJoin [layerdbDir, "d1", "cache-id"], "c1\n"),
   (pathJoin [layerdbDir, "d2", "cache-id"], "c2\n"),
   (pathJoin [layerdbDir, "dT", "cache-id"], "cT\n"),
   (pathJoin [layersDir, "cT"], "c1\nx\ny\n")]

def exLayersP : String := pathJoin [layersDir, "cT"]

/-- The filesystem produced by `compose exFS ["m1", "m2"]`. -/
def exG : FS :=
  [(pathJoin [layersDir, "cT"], "c2\nc1\nx\ny\n"),
   (pathJoin [layersDir, "cT"] ++ "-backup", "c1\nx\ny\n"),
   (pathJoin [manifestDir, "m1"], exMan),
   (pathJoin [layerdbDir, "d1", "cache-id"], "c1\n"),
   (pathJoin [layerdbDir, "d2", "cache-id"], "c2\n"),
   (pathJoin [layerdbDir, "dT", "cache-id"], "cT\n")]

/-- Like `exFS` but the base CacheID `c1` does not occur in the chain. -/
def exFS1 : FS :=
  [(pathJoin [manifestDir, "m1"], "m1,d1\nchainID,dT"),
   (pathJoin [layerdbDir, "d1", "cache-id"], "c1\n"),
   (pathJoin [layerdbDir, "dT", "cache-id"], "cT\n"),
   (pathJoin [layersDir, "cT"], "x\ny\n")]

/-- Like `exFS` but the base CacheID `c1` occurs twice in the chain. -/
def exFS4 : FS :=
  [(pathJoin [manifestDir, "m1"], exMan),
   (pathJoin [layerdbDir, "d1", "cache-id"], "c1\n"),
   (pathJoin [layerdbDir, "d2", "cache-id"], "c2\n"),
   (pathJoin [layerdbDir, "dT", "cache-id"], "cT\n"),
   (pathJoin [layersDir, "cT"], "c1\nx\nc1\ny\n")]

/-- Like `exFS` but the manifest contains a line with no comma. -/
def exFS7 : FS :=
  [(pathJoin [manifestDir, "m1"], "m1,d1\nbadline\nchainID,dT"),
   (pathJoin [layerdbDir, "d1", "cache-id"], "c1\n"),
   (pathJoin [layerdbDir, "dT", "cache-id"], "cT\n"),
   (pathJoin [layersDir, "cT"], "c1\nx\n")]

/-- `exFS` with a leftover backup file from an earlier composition. -/
def exFS8 : FS := (pathJoin [layersDir, "cT"] ++ "-backup", "OLD") :: exFS

/-- Like `exFS` but the `cache-id` file for digest `d2` is missing. -/
def exFS9 : FS :=
  [(pathJoin [manifestDir, "m1"], exMan),
   (pathJoin [layerdbDir, "d1", "cache-id"], "c1\n"),
   (pathJoin [layerdbDir, "dT", "cache-id"], "cT\n"),
   (pathJoin [layersDir, "cT"], "c1\nx\n")]

/-- All external container-creation steps succeed. -/
def stAllOk : Steps :=
  ⟨true, true, true, true, true, true, true, true, true, true, true, true⟩

/-- `daemon.Register` fails; everything else succeeds. -/
def stFailRegister : Steps :=
  ⟨true, true, true, true, true, false, true, true, true, true, true, true⟩

/-! ### The claims -/

/-- C1 (counterexample): with the base CacheID `c1` absent from the
original chain `["x", "y"]`, `compose` does not fail at all — and it does
mutate the descriptor file — contrary to the claim that it fails with
`SplitPointNotFound` and performs no file mutation. -/
theorem C1_counterexample :
    Outcome.isFail (compose exFS1 ["m1"]) = false ∧
    FS.read (Outcome.fsOut (compose exFS1 ["m1"])) (pathJoin [layersDir, "cT"]) ≠
      FS.read exFS1 (pathJoin [layersDir, "cT"]) := by
  decide

/-- C1 (amended): when the base CacheID does not occur in the original
chain, `compose` succeeds anyway: it backs up the original descriptor and
rewrites it with only the reversed synthesized list (minus its last
element) — a silently truncated chain with no original suffix and no
error. -/
theorem C1_amended_thm (fs : FS) (p0 : String) (rest : List String) (mtext : String)
    (functionM : List (String × String)) (composeS : List String) (orig : String)
    (hm : FS.read fs (pathJoin [manifestDir, p0]) = some mtext)
    (hp : parseManifestLines (linesOf mtext) = some functionM)
    (hr : resolveLoop fs functionM (p0 :: rest ++ ["chainID"]) = Except.ok composeS)
    (ho : FS.read fs (pathJoin [layersDir, lastD composeS]) = some orig)
    (hbase : headD composeS ∉ chainLines orig) :
    compose fs (p0 :: rest) =
      Outcome.ok (pathJoin [layersDir, lastD composeS])
        (FS.write
          (FS.write (FS.erase fs (pathJoin [layersDir, lastD composeS]))
            (pathJoin [layersDir, lastD composeS] ++ "-backup") orig)
          (pathJoin [layersDir, lastD composeS])
          (renderLines (List.reverse (List.dropLast composeS)))) := by
  rw [compose_resolved fs p0 rest mtext functionM composeS hm hp hr,
      composeWrite_ok fs composeS orig ho,
      suffixAfterFirst_not_mem _ _ hbase, List.append_nil]

/-- C1 (witness for the amended claim), at the concrete input `exFS1`. -/
theorem C1_amended_witness :
    compose exFS1 ["m1"] =
      Outcome.ok (pathJoin [layersDir, lastD ["c1", "cT"]])
        (FS.write
          (FS.write (FS.erase exFS1 (pathJoin [layersDir, lastD ["c1", "cT"]]))
            (pathJoin [layersDir, lastD ["c1", "cT"]] ++ "-backup") "x\ny\n")
          (pathJoin [layersDir, lastD ["c1", "cT"]])
          (renderLines (List.reverse (List.dropLast ["c1", "cT"])))) :=
  C1_amended_thm exFS1 "m1" [] "m1,d1\nchainID,dT" [("m1", "d1"), ("chainID", "dT")]
    ["c1", "cT"] "x\ny\n" (by decide) (by decide) rfl (by decide) (by decide)

/-- C2: whenever `compose` succeeds, running `restore` on the returned
descriptor path succeeds and leaves the descriptor file's content
byte-identical to what it was before `compose`. -/
theorem C2_roundtrip (fs : FS) (paras : List String) (p : String) (g : FS)
    (h : compose fs paras = Outcome.ok p g) :
    (restore g p).1 = none ∧ FS.read (restore g p).2 p = FS.read fs p := by
  obtain ⟨orig, newC, hread, hg⟩ := compose_ok_inv fs paras p g h
  have hbk : p ++ "-backup" ≠ p := append_backup_ne p
  have h1 : FS.read g p = some newC := by
    rw [hg]; exact FS.read_write_self _ _ _
  have h2 : FS.read (FS.erase g p) (p ++ "-backup") = some orig := by
    rw [FS.read_erase_ne g p (p ++ "-backup") (Ne.symm hbk), hg,
        FS.read_write_ne _ _ _ _ (Ne.symm hbk)]
    exact FS.read_write_self _ _ _
  have h3 : restore g p =
      (none, FS.write (FS.erase (FS.erase g p) (p ++ "-backup")) p orig) := by
    simp only [restore, FS.remove, FS.rename, h1, h2]
  rw [h3, hread]
  exact ⟨rfl, FS.read_write_self _ _ _⟩

/-- C2 (witness): the round-trip at the concrete input `exFS`. -/
theorem C2_witness :
    (restore exG exLayersP).1 = none ∧
    FS.read (restore exG exLayersP).2 exLayersP = FS.read exFS exLayersP :=
  C2_roundtrip exFS ["m1", "m2"] exLayersP exG (by decide)

/-- C9: a resolution failure aborts `compose` with the filesystem — in
particular the descriptor file — untouched: an unopenable manifest, and
an unopenable `cache-id` metadata file, both return the error with the
filesystem exactly as it was. -/
theorem C9_fail_no_mutation (fs : FS) (p0 : String) (rest : List String) :
    (FS.read fs (pathJoin [manifestDir, p0]) = none →
      compose fs (p0 :: rest) =
        Outcome.fail (GoErr.openErr (pathJoin [manifestDir, p0])) fs) ∧
    (∀ mtext functionM e,
      FS.read fs (pathJoin [manifestDir, p0]) = some mtext →
      parseManifestLines (linesOf mtext) = some functionM →
      resolveLoop fs functionM (p0 :: rest ++ ["chainID"]) = Except.error e →
      compose fs (p0 :: rest) = Outcome.fail e fs) := by
  constructor
  · intro hm
    simp only [compose, hm]
  · intro mtext functionM e hm hp hr
    simp only [compose, hm, hp, hr]

/-- C9 (witness): a missing manifest on the empty filesystem, and the
missing `cache-id` file for digest `d2` on `exFS9`, both abort with the
filesystem unchanged. -/
theorem C9_witness :
    compose ([] : FS) ["m0"] =
      Outcome.fail (GoErr.openErr (pathJoin [manifestDir, "m0"])) [] ∧
    compose exFS9 ["m1", "m2"] =
      Outcome.fail (GoErr.openErr (pathJoin [layerdbDir, "d2", "cache-id"])) exFS9 :=
  ⟨(C9_fail_no_mutation [] "m0" []).1 (by decide),
   (C9_fail_no_mutation exFS9 "m1" ["m2"]).2 exMan
     [("m1", "d1"), ("m2", "d2"), ("chainID", "dT")]
     (GoErr.openErr (pathJoin [layerdbDir, "d2", "cache-id"]))
     (by decide) (by decide) rfl⟩

/-- C4: when the base CacheID (the first resolved entry, `composeS[0]`)
occurs in the original chain, the composed descriptor's content after the
synthesized part is exactly the original entries strictly after the FIRST
occurrence, copied verbatim in order — additional occurrences inside `l2`
do not affect the split. -/
theorem C4_split_correct (fs : FS) (p0 : String) (rest : List String) (mtext : String)
    (functionM : List (String × String)) (composeS : List String) (orig : String)
    (l1 l2 : List String)
    (hm : FS.read fs (pathJoin [manifestDir, p0]) = some mtext)
    (hp : parseManifestLines (linesOf mtext) = some functionM)
    (hr : resolveLoop fs functionM (p0 :: rest ++ ["chainID"]) = Except.ok composeS)
    (ho : FS.read fs (pathJoin [layersDir, lastD composeS]) = some orig)
    (hsplit : chainLines orig = l1 ++ headD composeS :: l2)
    (hfirst : headD composeS ∉ l1) :
    FS.read (Outcome.fsOut (compose fs (p0 :: rest)))
        (pathJoin [layersDir, lastD composeS]) =
      some (renderLines (List.reverse (List.dropLast composeS) ++ l2)) := by
  rw [compose_resolved fs p0 rest mtext functionM composeS hm hp hr,
      composeWrite_ok fs composeS orig ho]
  simp only [Outcome.fsOut]
  rw [hsplit, suffixAfterFirst_append l1 l2 _ hfirst]
  exact FS.read_write_self _ _ _

/-- C4 (witness): on `exFS4` the chain is `["c1", "x", "c1", "y"]` and
the split point `c1` occurs twice: the suffix is everything strictly
after the first occurrence, `["x", "c1", "y"]`, verbatim. -/
theorem C4_witness :
    FS.read (Outcome.fsOut (compose exFS4 ["m1", "m2"]))
        (pathJoin [layersDir, lastD ["c1", "c2", "cT"]]) =
      some (renderLines (List.reverse (List.dropLast ["c1", "c2", "cT"]) ++
        ["x", "c1", "y"])) :=
  C4_split_correct exFS4 "m1" ["m2"] exMan
    [("m1", "d1"), ("m2", "d2"), ("chainID", "dT")]
    ["c1", "c2", "cT"] "c1\nx\nc1\ny\n" [] ["x", "c1", "y"]
    (by decide) (by decide) rfl (by decide) (by decide) (by decide)

/-- C5: the part of the composed descriptor written before the
original-chain suffix is exactly the resolved CacheIDs of the request
tokens in reverse request order — the synthesized list's last element
(the synthetic `chainID` top-layer marker) is omitted. -/
theorem C5_order (fs : FS) (p0 : String) (rest : List String) (mtext : String)
    (functionM : List (String × String)) (composeS : List String) (orig : String)
    (hm : FS.read fs (pathJoin [manifestDir, p0]) = some mtext)
    (hp : parseManifestLines (linesOf mtext) = some functionM)
    (hr : resolveLoop fs functionM (p0 :: rest ++ ["chainID"]) = Except.ok composeS)
    (ho : FS.read fs (pathJoin [layersDir, lastD composeS]) = some orig) :
    FS.read (Outcome.fsOut (compose fs (p0 :: rest)))
        (pathJoin [layersDir, lastD composeS]) =
      some (renderLines
        (List.reverse (List.map (resolveOne fs functionM) (p0 :: rest)) ++
          suffixAfterFirst (chainLines orig) (headD composeS))) := by
  rw [compose_resolved fs p0 rest mtext functionM composeS hm hp hr,
      composeWrite_ok fs composeS orig ho]
  simp only [Outcome.fsOut]
  have hcs : composeS = List.map (resolveOne fs functionM) (p0 :: rest ++ ["chainID"]) :=
    resolveLoop_ok_map _ _ _ _ hr
  rw [FS.read_write_self]
  rw [show List.dropLast composeS = List.map (resolveOne fs functionM) (p0 :: rest) from by
    rw [hcs]
    exact dropLast_map_concat _ _ _]

/-- C5 (witness): on `exFS` with request `["m1", "m2"]` the composed
content starts with the resolved CacheIDs reversed (`c2` then `c1`), the
`chainID` marker omitted. -/
theorem C5_witness :
    FS.read (Outcome.fsOut (compose exFS ["m1", "m2"]))
        (pathJoin [layersDir, lastD ["c1", "c2", "cT"]]) =
      some (renderLines
        (List.reverse (List.map
          (resolveOne exFS [("m1", "d1"), ("m2", "d2"), ("chainID", "dT")])
          ["m1", "m2"]) ++
          suffixAfterFirst (chainLines "c1\nx\ny\n") (headD ["c1", "c2", "cT"]))) :=
  C5_order exFS "m1" ["m2"] exMan
    [("m1", "d1"), ("m2", "d2"), ("chainID", "dT")]
    ["c1", "c2", "cT"] "c1\nx\ny\n"
    (by decide) (by decide) rfl (by decide)

/-- C10: `compose` appends the literal token `"chainID"` to the request
and resolves it through the very same manifest/cache-id steps; the
descriptor path it backs up, rewrites and returns is keyed by that
entry's resolved CacheID (the last element of the synthesized list).
Consequently, when the manifest has no `"chainID"` record (and no file
exists at the degenerate metadata path built from the empty digest),
`compose` cannot succeed. -/
theorem C10_chainID_top (fs : FS) (p0 : String) (rest : List String) (mtext : String)
    (functionM : List (String × String))
    (hm : FS.read fs (pathJoin [manifestDir, p0]) = some mtext)
    (hp : parseManifestLines (linesOf mtext) = some functionM) :
    (mapFind functionM "chainID" = none →
      FS.read fs (pathJoin [layerdbDir, "cache-id"]) = none →
      ∀ p g, compose fs (p0 :: rest) ≠ Outcome.ok p g) ∧
    (∀ composeS orig,
      resolveLoop fs functionM (p0 :: rest ++ ["chainID"]) = Except.ok composeS →
      FS.read fs (pathJoin [layersDir, lastD composeS]) = some orig →
      Outcome.pathOut (compose fs (p0 :: rest)) =
        pathJoin [layersDir, resolveOne fs functionM "chainID"] ∧
      FS.read (Outcome.fsOut (compose fs (p0 :: rest)))
        (pathJoin [layersDir, lastD composeS] ++ "-backup") = some orig) := by
  constructor
  · intro hfind hdeg p g h
    have hpath : resolveOnePath functionM "chainID" = pathJoin [layerdbDir, "cache-id"] := by
      simp only [resolveOnePath, mapGet, hfind, Option.getD_none]
      decide
    have hnone : FS.read fs (resolveOnePath functionM "chainID") = none := by
      rw [hpath]; exact hdeg
    simp only [compose, hm, hp] at h
    split at h
    · simp at h
    · rename_i composeS hrec
      exact resolveLoop_mem_fail fs functionM (p0 :: rest ++ ["chainID"]) "chainID"
        (by simp) hnone composeS hrec
  · intro composeS orig hrec ho
    have hcs : composeS =
        List.map (resolveOne fs functionM) (p0 :: rest ++ ["chainID"]) :=
      resolveLoop_ok_map _ _ _ _ hrec
    have hlast : lastD composeS = resolveOne fs functionM "chainID" := by
      rw [hcs]
      exact lastD_map_concat _ _ _
    rw [compose_resolved fs p0 rest mtext functionM composeS hm hp hrec,
        composeWrite_ok fs composeS orig ho]
    refine ⟨by simp only [Outcome.pathOut, hlast], ?_⟩
    simp only [Outcome.fsOut]
    rw [FS.read_write_ne _ _ _ _ (Ne.symm (append_backup_ne _))]
    exact FS.read_write_self _ _ _

/-- C10 (witness): on `exFS` the returned path is keyed by the CacheID
resolved for `"chainID"` and the backup holds the original content; and
on a filesystem whose manifest lacks a `"chainID"` record, `compose`
cannot return success. -/
theorem C10_witness :
    (Outcome.pathOut (compose exFS ["m1", "m2"]) =
        pathJoin [layersDir,
          resolveOne exFS [("m1", "d1"), ("m2", "d2"), ("chainID", "dT")] "chainID"] ∧
      FS.read (Outcome.fsOut (compose exFS ["m1", "m2"]))
        (pathJoin [layersDir, lastD ["c1", "c2", "cT"]] ++ "-backup") =
          some "c1\nx\ny\n") ∧
    (∀ p g,
      compose [(pathJoin [manifestDir, "m1"], "m1,d1"),
               (pathJoin [layerdbDir, "d1", "cache-id"], "c1\n")] ["m1"] ≠
        Outcome.ok p g) :=
  ⟨(C10_chainID_top exFS "m1" ["m2"] exMan
      [("m1", "d1"), ("m2", "d2"), ("chainID", "dT")] (by decide) (by decide)).2
      ["c1", "c2", "cT"] "c1\nx\ny\n" rfl (by decide),
   (C10_chainID_top
      [(pathJoin [manifestDir, "m1"], "m1,d1"),
       (pathJoin [layerdbDir, "d1", "cache-id"], "c1\n")] "m1" [] "m1,d1"
      [("m1", "d1")] (by decide) (by decide)).1 (by decide) (by decide)⟩

/-- C3 (counterexample): on `exFS` with image `"img_m1_m2"`, `compose`
succeeds and swaps the descriptor, but when `daemon.Register` fails the
run returns its error WITHOUT invoking `restore`: the final filesystem
still holds the composed descriptor and the outstanding backup. -/
theorem C3_counterexample :
    createModel exFS "img_m1_m2" stFailRegister =
      some ⟨false, false, true, true, exG⟩ ∧
    FS.read exG (pathJoin [layersDir, "cT"] ++ "-backup") = some "c1\nx\ny\n" ∧
    FS.read exG (pathJoin [layersDir, "cT"]) = some "c2\nc1\nx\ny\n" ∧
    FS.read exFS (pathJoin [layersDir, "cT"]) = some "c1\nx\ny\n" := by
  decide

/-- C3 (amended): `restore` is invoked exactly when every
container-creation step succeeds; on any step failure the pipeline
returns with the filesystem exactly as `compose` left it (composed), and
only on full success is the restore transition applied. -/
theorem C3_amended_thm (fs : FS) (layersP : String) (needImage : Bool) (st : Steps) :
    (pipeline fs layersP needImage st).restoreCalled = stepsAllOk needImage st ∧
    (pipeline fs layersP needImage st).fs =
      cond (stepsAllOk needImage st) (restore fs layersP).2 fs := by
  by_cases hall : stepsAllOk needImage st = true
  · rw [pipeline_allOk fs layersP needImage st hall, hall]
    cases hres : restore fs layersP with
    | mk e g =>
      cases e <;> simp [hres]
  · rw [Bool.not_eq_true] at hall
    rw [hall]
    unfold pipeline
    by_cases h1 : (needImage && !st.getImage) = true
    · rw [if_pos h1]; exact ⟨rfl, rfl⟩
    rw [if_neg h1]
    by_cases h2 : (!st.mergeAndVerify) = true
    · rw [if_pos h2]; exact ⟨rfl, rfl⟩
    rw [if_neg h2]
    by_cases h3 : (!st.newContainer) = true
    · rw [if_pos h3]; exact ⟨rfl, rfl⟩
    rw [if_neg h3]
    by_cases h4 : (!st.setSecurityOptions) = true
    · rw [if_pos h4]; exact ⟨rfl, rfl⟩
    rw [if_neg h4]
    by_cases h5 : (!st.setRWLayer) = true
    · rw [if_pos h5]; exact ⟨rfl, rfl⟩
    rw [if_neg h5]
    by_cases h6 : (!st.register) = true
    · rw [if_pos h6]; exact ⟨rfl, rfl⟩
    rw [if_neg h6]
    by_cases h7 : (!st.rootUIDGID) = true
    · rw [if_pos h7]; exact ⟨rfl, rfl⟩
    rw [if_neg h7]
    by_cases h8 : (!st.mkdirAs) = true
    · rw [if_pos h8]; exact ⟨rfl, rfl⟩
    rw [if_neg h8]
    by_cases h9 : (!st.setHostConfig) = true
    · rw [if_pos h9]; exact ⟨rfl, rfl⟩
    rw [if_neg h9]
    by_cases h10 : (!st.platformSettings) = true
    · rw [if_pos h10]; exact ⟨rfl, rfl⟩
    rw [if_neg h10]
    by_cases h11 : (!st.updateNetwork) = true
    · rw [if_pos h11]; exact ⟨rfl, rfl⟩
    rw [if_neg h11]
    by_cases h12 : (!st.toDisk) = true
    · rw [if_pos h12]; exact ⟨rfl, rfl⟩
    rw [if_neg h12]
    exfalso
    simp only [Bool.not_eq_true] at h1 h2 h3 h4 h5 h6 h7 h8 h9 h10 h11 h12
    simp only [Bool.not_eq_false_eq_eq_true] at h2 h3 h4 h5 h6 h7 h8 h9 h10 h11 h12
    have htrue : stepsAllOk needImage st = true := by
      simp only [stepsAllOk, h2, h3, h4, h5, h6, h7, h8, h9, h10, h11, h12, Bool.and_true]
      cases needImage <;> simp_all
    rw [htrue] at hall
    exact Bool.noConfusion hall

/-- C6 (counterexample): with every container-creation step succeeding
but `restore` failing, `create` surfaces the error (`ok = false`) AND its
deferred cleanup force-removes the freshly created container — contrary
to the claim that the container is not destroyed. -/
theorem C6_counterexample :
    (restore ([] : FS) "L").1 ≠ none ∧
    pipeline ([] : FS) "L" false stAllOk =
      ⟨false, true, true, true, []⟩ := by
  decide

/-- C6 (amended): whenever all steps succeed and the final `restore`
fails, the pipeline returns the error, after having created the container
and then force-removed it through the deferred `ContainerRm` cleanup. -/
theorem C6_amended_thm (fs : FS) (layersP : String) (needImage : Bool) (st : Steps)
    (e : GoErr) (g : FS)
    (hall : stepsAllOk needImage st = true)
    (hres : restore fs layersP = (some e, g)) :
    pipeline fs layersP needImage st = ⟨false, true, true, true, g⟩ := by
  rw [pipeline_allOk fs layersP needImage st hall, hres]

/-- C6 (witness for the amended claim) at a concrete filesystem where the
descriptor file is missing, so `os.Remove` inside `restore` fails. -/
theorem C6_amended_witness :
    pipeline [("X", "y")] "L" false stAllOk =
      ⟨false, true, true, true, [("X", "y")]⟩ :=
  C6_amended_thm [("X", "y")] "L" false stAllOk (GoErr.removeErr "L") [("X", "y")]
    (by decide) (by decide)

/-- C7 (counterexample): a manifest containing the comma-less line
`"badline"` makes `compose` panic (index out of range on `m[1]`) — it
does not surface any error value, let alone a `ManifestParseError`. -/
theorem C7_counterexample :
    compose exFS7 ["m1"] = Outcome.crash ∧
    Outcome.isFail (compose exFS7 ["m1"]) = false := by
  decide

/-- C7 (amended): blank manifest lines are skipped, but any non-blank
line lacking the comma separator crashes `compose` with an
index-out-of-range panic instead of a parse error naming the line. -/
theorem C7_amended_thm (fs : FS) (p0 : String) (rest : List String) (mtext t : String)
    (hm : FS.read fs (pathJoin [manifestDir, p0]) = some mtext)
    (hmem : t ∈ linesOf mtext) (hne : t ≠ "") (hbad : splitComma t = [t]) :
    compose fs (p0 :: rest) = Outcome.crash ∧
    ∀ ls : List String, parseManifestLines ("" :: ls) = parseManifestLines ls := by
  constructor
  · simp only [compose, hm, parse_bad_line_none (linesOf mtext) t hmem hne hbad]
  · intro ls
    simp [parseManifestLines]

/-- C7 (witness for the amended claim) at the concrete manifest of
`exFS7`, whose second line `"badline"` has no comma. -/
theorem C7_amended_witness :
    compose exFS7 ["m1"] = Outcome.crash ∧
    ∀ ls : List String, parseManifestLines ("" :: ls) = parseManifestLines ls :=
  C7_amended_thm exFS7 "m1" [] "m1,d1\nbadline\nchainID,dT" "badline"
    (by decide) (by decide) (by decide) (by decide)

/-- C8 (counterexample): on `exFS8`, where the backup path already holds
an older backup `"OLD"`, `compose` does not fail at all: the rename
silently overwrites the outstanding backup with the current descriptor
content. -/
theorem C8_counterexample :
    FS.read exFS8 (pathJoin [layersDir, "cT"] ++ "-backup") = some "OLD" ∧
    Outcome.isFail (compose exFS8 ["m1", "m2"]) = false ∧
    FS.read (Outcome.fsOut (compose exFS8 ["m1", "m2"]))
      (pathJoin [layersDir, "cT"] ++ "-backup") = some "c1\nx\ny\n" := by
  decide

/-- C8 (amended): an existing file at the backup path never makes the
backup step fail — `os.Rename` replaces it, so a second composition
against a descriptor with an outstanding backup succeeds and the old
backup content is lost, replaced by the current descriptor content. -/
theorem C8_amended_thm (fs : FS) (p0 : String) (rest : List String) (mtext : String)
    (functionM : List (String × String)) (composeS : List String) (orig oldB : String)
    (hm : FS.read fs (pathJoin [manifestDir, p0]) = some mtext)
    (hp : parseManifestLines (linesOf mtext) = some functionM)
    (hr : resolveLoop fs functionM (p0 :: rest ++ ["chainID"]) = Except.ok composeS)
    (ho : FS.read fs (pathJoin [layersDir, lastD composeS]) = some orig)
    (_hold : FS.read fs (pathJoin [layersDir, lastD composeS] ++ "-backup") = some oldB) :
    Outcome.isFail (compose fs (p0 :: rest)) = false ∧
    FS.read (Outcome.fsOut (compose fs (p0 :: rest)))
      (pathJoin [layersDir, lastD composeS] ++ "-backup") = some orig := by
  rw [compose_resolved fs p0 rest mtext functionM composeS hm hp hr,
      composeWrite_ok fs composeS orig ho]
  refine ⟨rfl, ?_⟩
  simp only [Outcome.fsOut]
  rw [FS.read_write_ne _ _ _ _ (Ne.symm (append_backup_ne _))]
  exact FS.read_write_self _ _ _

/-- C8 (witness for the amended claim) at `exFS8`, whose backup path
already holds `"OLD"`. -/
theorem C8_amended_witness :
    Outcome.isFail (compose exFS8 ["m1", "m2"]) = false ∧
    FS.read (Outcome.fsOut (compose exFS8 ["m1", "m2"]))
      (pathJoin [layersDir, lastD ["c1", "c2", "cT"]] ++ "-backup") =
        some "c1\nx\ny\n" :=
  C8_amended_thm exFS8 "m1" ["m2"] exMan
    [("m1", "d1"), ("m2", "d2"), ("chainID", "dT")]
    ["c1", "c2", "cT"] "c1\nx\ny\n" "OLD"
    (by decide) (by decide) rfl (by decide) (by decide)

end Docker
